import Mathlib

/-!
Verification of the connection registry and broadcast fan-out of the
WebsocketTP server (src/server.py).

The registry is `ConnectionManager`: a list `active` of websocket handles
guarded by a single asyncio lock.  Websocket handles are compared by object
identity in Python (both `connection is sender` and the default `==` used by
`in` and `remove`), so they are modelled as numeric ids with decidable
equality.  Each method body is translated directly:

* `connect` (lines 37-40): accept the transport, then append the handle to
  `active` unconditionally under the lock.
* `disconnect` (lines 42-45): under the lock, remove the first occurrence of
  the handle if present, otherwise do nothing.
* `broadcast` (lines 47-60): under the lock, iterate over a snapshot of
  `active`, skip the sender, attempt `send_text` on every other connection,
  collect the connections whose send raised, and after the full pass remove
  each collected connection from `active` if still present.

The outcome of each `send_text` call is a parameter: a boolean failure
function for the pure model, and an `Except`-valued function for the model
that makes exception propagation explicit.
-/

namespace WebsocketTP

/-- A websocket connection handle.  Python compares handles by object
identity (the default `__eq__`), modelled as a numeric id. -/
abbrev Conn := Nat

/-- State of `ConnectionManager` (src/server.py line 34): the mutable list
`self.active` of currently registered websockets. -/
structure ConnectionManager where
  active : List Conn
deriving DecidableEq

namespace ConnectionManager

/-- The registry created at startup (line 63): `active` starts empty. -/
def empty : ConnectionManager := ⟨[]⟩

/-- Embedding of `ConnectionManager.connect` (lines 37-40): after the
transport handshake, the websocket is appended to `self.active`
unconditionally (the code performs no presence check). -/
def connect (m : ConnectionManager) (ws : Conn) : ConnectionManager :=
  ⟨m.active ++ [ws]⟩

/-- Embedding of `ConnectionManager.disconnect` (lines 42-45): if the
websocket is in `self.active`, `list.remove` deletes its first occurrence;
otherwise the call is a no-op. -/
def disconnect (m : ConnectionManager) (ws : Conn) : ConnectionManager :=
  if ws ∈ m.active then ⟨m.active.erase ws⟩ else m

/-- Embedding of the registry size read `len(manager.active)` used by the
welcome message (line 98) and the metrics endpoint (line 118). -/
def count (m : ConnectionManager) : Nat := m.active.length

end ConnectionManager

/-- Delivery pass of `broadcast` (lines 49-57): iterate over the snapshot
`list(self.active)`, skip the connection that is the sender, attempt
`send_text(message)` on every other connection, and append each connection
whose send raised to `to_remove`.  Returns the attempted sends in order
(each as the pair of the connection and the text passed to `send_text`)
together with `to_remove` in order; `fails` gives the outcome of each send. -/
def deliveryPass (msg : String) (fails : Conn → Bool) (sender : Option Conn) :
    List Conn → List (Conn × String) × List Conn
  | [] => ([], [])
  | c :: rest =>
    if sender = some c then deliveryPass msg fails sender rest
    else
      let p := deliveryPass msg fails sender rest
      ((c, msg) :: p.1, if fails c then c :: p.2 else p.2)

/-- Cleanup loop of `broadcast` (lines 58-60): for each collected connection
`r`, remove it from `self.active` if it is still present. -/
def removePass (active : List Conn) : List Conn → List Conn
  | [] => active
  | r :: rs => removePass (if r ∈ active then active.erase r else active) rs

/-- Observable outcome of one `broadcast` call: the sends attempted during
the delivery pass, and the registry state when the call returns. -/
structure BroadcastResult where
  attempts : List (Conn × String)
  manager : ConnectionManager
deriving DecidableEq

/-- Embedding of `ConnectionManager.broadcast` (lines 47-60): the delivery
pass over a snapshot of `active` followed by the post-pass cleanup.  The
default `sender=None` is `Option.none`, in which case no connection is
skipped, exactly as `connection is None` is false for every websocket. -/
def ConnectionManager.broadcast (m : ConnectionManager) (msg : String)
    (fails : Conn → Bool) (sender : Option Conn) : BroadcastResult :=
  let p := deliveryPass msg fails sender m.active
  { attempts := p.1, manager := ⟨removePass m.active p.2⟩ }

/-- Delivery pass with explicit exception propagation: `send` returns an
`Except`, and the `try`/`except Exception` around `send_text` (lines 53-57)
catches every exception and records the connection in `to_remove` instead
of re-raising.  An exception escaping the loop would surface here as
`Except.error`. -/
def deliveryPassExc (send : Conn → Except String Unit) (sender : Option Conn) :
    List Conn → Except String (List Conn)
  | [] => Except.ok []
  | c :: rest =>
    if sender = some c then deliveryPassExc send sender rest
    else
      match send c with
      | Except.ok _ => deliveryPassExc send sender rest
      | Except.error _ =>
        match deliveryPassExc send sender rest with
        | Except.ok rem => Except.ok (c :: rem)
        | Except.error e => Except.error e

/-- Embedding of `broadcast` in the exception monad: the delivery pass may
in principle propagate an exception; the cleanup loop is pure list
manipulation and cannot raise. -/
def ConnectionManager.broadcastExc (m : ConnectionManager)
    (send : Conn → Except String Unit) (sender : Option Conn) :
    Except String ConnectionManager :=
  match deliveryPassExc send sender m.active with
  | Except.ok rem => Except.ok ⟨removePass m.active rem⟩
  | Except.error e => Except.error e

/-- Failure view of an `Except`-valued send: a send fails exactly when it
raises. -/
def sendFailsOf (send : Conn → Except String Unit) (c : Conn) : Bool :=
  match send c with
  | Except.ok _ => false
  | Except.error _ => true

/-- Embedding of the open sequence of `websocket_broadcast` (lines 95-98):
`manager.connect(websocket)` followed by sending the welcome text built
from the path name and the value of `len(manager.active)` read after the
join.  Returns the registry state after the join and the text sent. -/
def handlerOpen (m : ConnectionManager) (ws : Conn) (name : String) :
    ConnectionManager × String :=
  let m2 := m.connect ws
  (m2, "Bienvenue " ++ name ++ ", il y a " ++ toString m2.count ++ " connecte(s).")

/-- Embedding of one iteration of the receive loop of `websocket_broadcast`
(lines 100-103): the inbound message is formatted as the name, a colon and
a space, then the message, and broadcast with the receiving websocket as
the excluded sender. -/
def handlerMessage (m : ConnectionManager) (ws : Conn) (name message : String)
    (fails : Conn → Bool) : BroadcastResult :=
  m.broadcast (name ++ ": " ++ message) fails (some ws)

/-- A call against the registry: a join (`connect`) or a leave
(`disconnect`) of a given websocket. -/
inductive RegOp where
  | join (c : Conn)
  | leave (c : Conn)
deriving DecidableEq

/-- Effect of one registry call on the registry state. -/
def applyOp (m : ConnectionManager) : RegOp → ConnectionManager
  | RegOp.join c => m.connect c
  | RegOp.leave c => m.disconnect c

/-- Effect of a sequence of registry calls, applied left to right. -/
def runOps (m : ConnectionManager) (ops : List RegOp) : ConnectionManager :=
  ops.foldl applyOp m

/-- Spec-side definition, following the wording of the claim: a connection
has currently joined and not yet left when the most recent call concerning
it in the sequence is a join.  `init` gives the status before the sequence. -/
def specJoined (init : Conn → Bool) : List RegOp → Conn → Bool
  | [], c => init c
  | RegOp.join d :: rest, c =>
    specJoined (fun x => if x = d then true else init x) rest c
  | RegOp.leave d :: rest, c =>
    specJoined (fun x => if x = d then false else init x) rest c

/-- Call sequences in which no connection joins while already registered:
each connection joins at most once before leaving. -/
def goodSeqB : ConnectionManager → List RegOp → Bool
  | _, [] => true
  | m, RegOp.join c :: rest => decide (c ∉ m.active) && goodSeqB (m.connect c) rest
  | m, RegOp.leave c :: rest => goodSeqB (m.disconnect c) rest

/-!
Lock-discipline model.  Each operation of the program that touches
`manager.active` is abstracted to the sequence of lock events and registry
accesses its body performs, read off the source line by line.  A registry
access is a read or a mutation of the list `self.active`.
-/

/-- One event of an operation body: acquiring or releasing
`self.lock`, or an access (read or mutation) of `self.active`. -/
inductive LockEvent where
  | acquire
  | release
  | access (isMutation : Bool)
deriving DecidableEq

/-- Events of `connect` (lines 37-40): `websocket.accept()` touches no
registry state; the append to `self.active` happens inside the lock. -/
def connectEvents : List LockEvent :=
  [LockEvent.acquire, LockEvent.access true, LockEvent.release]

/-- Events of `disconnect` (lines 42-45): under the lock, a membership
read of `self.active`, then the removal when the websocket is present. -/
def disconnectEvents (present : Bool) : List LockEvent :=
  [LockEvent.acquire, LockEvent.access false] ++
    (if present then [LockEvent.access true] else []) ++ [LockEvent.release]

/-- Events of the cleanup loop of `broadcast` (lines 58-60): per collected
connection, a membership read and, when still present, a removal. -/
def cleanupEvents : List Bool → List LockEvent
  | [] => []
  | present :: rest =>
    (LockEvent.access false ::
      if present then [LockEvent.access true] else []) ++ cleanupEvents rest

/-- Events of `broadcast` (lines 47-60): under the lock, the snapshot read
`list(self.active)` (the sends themselves touch no registry state), then
the cleanup loop, then the release. -/
def broadcastEvents (cleanup : List Bool) : List LockEvent :=
  [LockEvent.acquire, LockEvent.access false] ++ cleanupEvents cleanup ++
    [LockEvent.release]

/-- Events of the welcome-message read `len(manager.active)` in
`websocket_broadcast` (line 98): a bare read, no lock acquisition. -/
def welcomeCountEvents : List LockEvent := [LockEvent.access false]

/-- Events of the metrics endpoint read `len(manager.active)` (line 118):
a bare read, no lock acquisition. -/
def metricsEvents : List LockEvent := [LockEvent.access false]

/-- Checks that every registry access in the event sequence happens while
the lock is held, starting from the given lock state. -/
def accessesLockedFrom (held : Bool) : List LockEvent → Bool
  | [] => true
  | LockEvent.acquire :: rest => accessesLockedFrom true rest
  | LockEvent.release :: rest => accessesLockedFrom false rest
  | LockEvent.access _ :: rest => held && accessesLockedFrom held rest

/-- Checks the lock discipline of an operation entered with the lock free. -/
def accessesLocked (t : List LockEvent) : Bool := accessesLockedFrom false t

/-!
Helper lemmas characterising the delivery pass and the cleanup loop.
-/

/-- The sends attempted by the delivery pass are exactly the snapshot
members other than the sender, in order, each with the broadcast text. -/
theorem deliveryPass_fst (msg : String) (fails : Conn → Bool)
    (sender : Option Conn) (l : List Conn) :
    (deliveryPass msg fails sender l).1 =
      (l.filter (fun c => !(decide (sender = some c)))).map (fun c => (c, msg)) := by
  induction l with
  | nil => rfl
  | cons c rest ih =>
    by_cases h : sender = some c
    · subst h
      simp [deliveryPass, List.filter_cons, ih]
    · simp [deliveryPass, h, List.filter_cons, ih]

/-- The collected removal list of the delivery pass is exactly the snapshot
members other than the sender whose send failed, in order. -/
theorem deliveryPass_snd (msg : String) (fails : Conn → Bool)
    (sender : Option Conn) (l : List Conn) :
    (deliveryPass msg fails sender l).2 =
      l.filter (fun c => !(decide (sender = some c)) && fails c) := by
  induction l with
  | nil => rfl
  | cons c rest ih =>
    by_cases h : sender = some c
    · subst h
      simp [deliveryPass, List.filter_cons, ih]
    · by_cases hf : fails c
      · simp [deliveryPass, h, hf, List.filter_cons, ih]
      · simp [deliveryPass, h, hf, List.filter_cons, ih]

/-- One step of the cleanup loop: the presence test is redundant because
erasing an absent element is the identity. -/
theorem removePass_cons (act : List Conn) (r : Conn) (rs : List Conn) :
    removePass act (r :: rs) = removePass (act.erase r) rs := by
  by_cases h : r ∈ act
  · simp [removePass, h]
  · simp [removePass, h, List.erase_of_not_mem h]

/-- The cleanup loop leaves the head of the registry in place when no
collected connection equals it. -/
theorem removePass_cons_left (c : Conn) (act rem : List Conn)
    (h : ∀ r ∈ rem, r ≠ c) :
    removePass (c :: act) rem = c :: removePass act rem := by
  induction rem generalizing act with
  | nil => rfl
  | cons r rs ih =>
    have hrc : r ≠ c := h r (List.mem_cons_self r rs)
    rw [removePass_cons, removePass_cons,
      List.erase_cons_tail (by simpa using fun hcr => hrc hcr.symm)]
    exact ih (act.erase r) fun x hx => h x (List.mem_cons_of_mem r hx)

/-- Removing every collected occurrence: when the removal list is exactly
the members of the registry satisfying `p`, the cleanup loop keeps exactly
the members that do not satisfy `p`, in order. -/
theorem removePass_filter (p : Conn → Bool) (l : List Conn) :
    removePass l (l.filter p) = l.filter (fun c => !(p c)) := by
  induction l with
  | nil => rfl
  | cons c rest ih =>
    by_cases hp : p c
    · rw [List.filter_cons_of_pos (by simpa using hp), removePass_cons,
        List.erase_cons_head, ih, List.filter_cons_of_neg (by simpa using hp)]
    · have hne : ∀ r ∈ rest.filter p, r ≠ c := by
        intro r hr hrc
        subst hrc
        exact hp (by simpa using (List.mem_filter.mp hr).2)
      rw [List.filter_cons_of_neg (by simpa using hp),
        removePass_cons_left c rest _ hne, ih,
        List.filter_cons_of_pos (by simpa using hp)]

/-- The sends a broadcast attempts, as a filter of the prior registry. -/
theorem broadcast_attempts (m : ConnectionManager) (msg : String)
    (fails : Conn → Bool) (sender : Option Conn) :
    (m.broadcast msg fails sender).attempts =
      (m.active.filter (fun c => !(decide (sender = some c)))).map
        (fun c => (c, msg)) :=
  deliveryPass_fst msg fails sender m.active

/-- The registry a broadcast leaves behind: members are kept exactly when
they are the sender or their send succeeded, in order. -/
theorem broadcast_active (m : ConnectionManager) (msg : String)
    (fails : Conn → Bool) (sender : Option Conn) :
    (m.broadcast msg fails sender).manager.active =
      m.active.filter (fun c => decide (sender = some c) || !(fails c)) := by
  show removePass m.active (deliveryPass msg fails sender m.active).2 = _
  rw [deliveryPass_snd, removePass_filter]
  congr 1
  funext c
  cases h : decide (sender = some c) <;> simp [h]

/-- Invariant of the registry under well-behaved call sequences: starting
from a duplicate-free registry matching `init`, the registry stays
duplicate-free and its members are exactly the connections the spec calls
currently joined. -/
theorem runOps_invariant (ops : List RegOp) :
    ∀ (m : ConnectionManager) (init : Conn → Bool),
      m.active.Nodup → (∀ c, c ∈ m.active ↔ init c = true) →
      goodSeqB m ops = true →
      (runOps m ops).active.Nodup ∧
        ∀ c, c ∈ (runOps m ops).active ↔ specJoined init ops c = true := by
  induction ops with
  | nil =>
    intro m init hnd hinit _
    exact ⟨hnd, fun c => by simpa [runOps, specJoined] using hinit c⟩
  | cons op rest ih =>
    intro m init hnd hinit hgood
    cases op with
    | join c =>
      simp only [goodSeqB, Bool.and_eq_true, decide_eq_true_eq] at hgood
      obtain ⟨hc, hrest⟩ := hgood
      have hnd2 : (m.connect c).active.Nodup := by
        simpa [ConnectionManager.connect, List.nodup_append] using ⟨hnd, hc⟩
      have hinit2 : ∀ x, x ∈ (m.connect c).active ↔
          (if x = c then true else init x) = true := by
        intro x
        by_cases hx : x = c
        · subst hx
          simp [ConnectionManager.connect]
        · simp [ConnectionManager.connect, hx, hinit x]
      have h2 := ih (m.connect c) (fun x => if x = c then true else init x)
        hnd2 hinit2 hrest
      exact ⟨h2.1, fun x => by simpa [runOps, applyOp, specJoined] using h2.2 x⟩
    | leave c =>
      simp only [goodSeqB] at hgood
      have hnd2 : (m.disconnect c).active.Nodup := by
        unfold ConnectionManager.disconnect
        by_cases hc : c ∈ m.active
        · simpa [hc] using hnd.erase c
        · simpa [hc] using hnd
      have hinit2 : ∀ x, x ∈ (m.disconnect c).active ↔
          (if x = c then false else init x) = true := by
        intro x
        unfold ConnectionManager.disconnect
        by_cases hc : c ∈ m.active
        · by_cases hx : x = c
          · subst hx
            simp [hc, List.Nodup.not_mem_erase hnd]
          · simp [hc, hx, hnd.mem_erase_iff, hinit x]
        · by_cases hx : x = c
          · subst hx
            simp [hc]
          · simp [hc, hx, hinit x]
      have h2 := ih (m.disconnect c) (fun x => if x = c then false else init x)
        hnd2 hinit2 hgood
      exact ⟨h2.1, fun x => by simpa [runOps, applyOp, specJoined] using h2.2 x⟩

/-- The pure model and the exception-monad model of the delivery pass
collect the same removal list, and the latter never raises. -/
theorem deliveryPassExc_eq (send : Conn → Except String Unit)
    (sender : Option Conn) (msg : String) (l : List Conn) :
    deliveryPassExc send sender l =
      Except.ok (deliveryPass msg (sendFailsOf send) sender l).2 := by
  induction l with
  | nil => rfl
  | cons c rest ih =>
    by_cases h : sender = some c
    · subst h
      simp [deliveryPassExc, deliveryPass, ih]
    · cases hs : send c with
      | ok u => simp [deliveryPassExc, deliveryPass, h, hs, ih, sendFailsOf]
      | error e => simp [deliveryPassExc, deliveryPass, h, hs, ih, sendFailsOf]

/-- The cleanup loop keeps the lock-discipline check satisfied while the
lock is held, whatever tail of events follows it. -/
theorem cleanupEvents_locked (tail : List LockEvent) (cs : List Bool)
    (htail : accessesLockedFrom true tail = true) :
    accessesLockedFrom true (cleanupEvents cs ++ tail) = true := by
  induction cs with
  | nil => simpa [cleanupEvents]
  | cons b rest ih =>
    cases b <;> simp [cleanupEvents, accessesLockedFrom, ih]

/-!
Claim theorems.
-/

/-- C1 fails as stated: `connect` has no presence check, so joining the
same websocket twice appends a second copy - the connection then appears
twice in the registry and `count()` reports 2 although only one distinct
connection has joined and not left. -/
theorem connect_dedup_counterexample :
    (runOps ConnectionManager.empty [RegOp.join 0, RegOp.join 0]).active = [0, 0] ∧
      ¬ (runOps ConnectionManager.empty [RegOp.join 0, RegOp.join 0]).active.Nodup ∧
      (runOps ConnectionManager.empty [RegOp.join 0, RegOp.join 0]).count = 2 := by
  decide

/-- C1 (amended): `connect` appends unconditionally, but for every
join/leave call sequence in which no connection joins while already
registered, each connection appears at most once, `count()` equals the
number of distinct currently-joined connections, and registry membership
is exactly the spec's joined-and-not-yet-left. -/
theorem connect_registry_invariant (ops : List RegOp)
    (hgood : goodSeqB ConnectionManager.empty ops = true) :
    (runOps ConnectionManager.empty ops).active.Nodup ∧
      (runOps ConnectionManager.empty ops).count =
        (runOps ConnectionManager.empty ops).active.toFinset.card ∧
      ∀ c, c ∈ (runOps ConnectionManager.empty ops).active ↔
        specJoined (fun _ => false) ops c = true := by
  have h := runOps_invariant ops ConnectionManager.empty (fun _ => false)
    (by simp [ConnectionManager.empty]) (by simp [ConnectionManager.empty]) hgood
  refine ⟨h.1, ?_, h.2⟩
  rw [List.toFinset_card_of_nodup h.1]
  rfl

/-- Witness for C1 at the call sequence join 1, join 2, leave 1. -/
theorem connect_registry_invariant_witness :
    goodSeqB ConnectionManager.empty [RegOp.join 1, RegOp.join 2, RegOp.leave 1] = true ∧
      ((runOps ConnectionManager.empty [RegOp.join 1, RegOp.join 2, RegOp.leave 1]).active.Nodup ∧
        (runOps ConnectionManager.empty [RegOp.join 1, RegOp.join 2, RegOp.leave 1]).count =
          (runOps ConnectionManager.empty
            [RegOp.join 1, RegOp.join 2, RegOp.leave 1]).active.toFinset.card ∧
        ∀ c, c ∈ (runOps ConnectionManager.empty
            [RegOp.join 1, RegOp.join 2, RegOp.leave 1]).active ↔
          specJoined (fun _ => false) [RegOp.join 1, RegOp.join 2, RegOp.leave 1] c = true) :=
  ⟨by decide, connect_registry_invariant _ (by decide)⟩

/-- C2: during one broadcast pass every registered non-excluded connection
receives a send attempt, whatever the other sends do, and a connection
whose send failed is absent from the registry when broadcast returns. -/
theorem broadcast_fault_isolation (m : ConnectionManager) (msg : String)
    (fails : Conn → Bool) (sender : Option Conn) (c : Conn)
    (hmem : c ∈ m.active) (hns : sender ≠ some c) :
    (c, msg) ∈ (m.broadcast msg fails sender).attempts ∧
      (fails c = true → c ∉ (m.broadcast msg fails sender).manager.active) := by
  constructor
  · rw [broadcast_attempts]
    exact List.mem_map.mpr ⟨c, List.mem_filter.mpr ⟨hmem, by simpa using hns⟩, rfl⟩
  · intro hf hmem2
    rw [broadcast_active] at hmem2
    have h2 := (List.mem_filter.mp hmem2).2
    rw [hf] at h2
    simp at h2
    exact hns h2

/-- Witness for C2: registry of connections 1 and 2 where the send to 2
fails - 2 is still attempted and is dropped from the registry. -/
theorem broadcast_fault_isolation_witness :
    2 ∈ (ConnectionManager.mk [1, 2]).active ∧ (none : Option Conn) ≠ some 2 ∧
      ((2, "hi") ∈ ((ConnectionManager.mk [1, 2]).broadcast "hi"
          (fun c => decide (c = 2)) none).attempts ∧
        ((fun c : Conn => decide (c = 2)) 2 = true →
          2 ∉ ((ConnectionManager.mk [1, 2]).broadcast "hi"
            (fun c => decide (c = 2)) none).manager.active)) :=
  ⟨by decide, by decide,
    broadcast_fault_isolation (ConnectionManager.mk [1, 2]) "hi"
      (fun c => decide (c = 2)) none 2 (by decide) (by decide)⟩

/-- C3: the excluded sender's send is never invoked during its own
broadcast - every attempted send targets a connection whose handle differs
from the sender's handle (handles are compared by identity). -/
theorem broadcast_no_self_delivery (m : ConnectionManager) (msg : String)
    (fails : Conn → Bool) (s : Conn) (p : Conn × String)
    (hp : p ∈ (m.broadcast msg fails (some s)).attempts) : p.1 ≠ s := by
  rw [broadcast_attempts] at hp
  obtain ⟨c, hc, rfl⟩ := List.mem_map.mp hp
  have hne := (List.mem_filter.mp hc).2
  simp only [Bool.not_eq_true', decide_eq_false_iff_not, Option.some.injEq] at hne
  exact fun h => hne h.symm

/-- Witness for C3: with sender 1 the attempt on connection 2 has a
handle different from the sender's. -/
theorem broadcast_no_self_delivery_witness :
    (2, "hi") ∈ ((ConnectionManager.mk [1, 2]).broadcast "hi"
        (fun _ => false) (some 1)).attempts ∧
      ((2, "hi") : Conn × String).1 ≠ 1 :=
  ⟨by decide,
    broadcast_no_self_delivery (ConnectionManager.mk [1, 2]) "hi"
      (fun _ => false) 1 (2, "hi") (by decide)⟩

/-- C4: immediately after its join the new client is sent exactly the
Bienvenue text carrying the post-join registry count, which is one more
than the count before the join. -/
theorem welcome_message_post_join_count (m : ConnectionManager) (ws : Conn)
    (name : String) :
    (handlerOpen m ws name).1 = m.connect ws ∧
      (handlerOpen m ws name).2 =
        "Bienvenue " ++ name ++ ", il y a " ++ toString ((m.connect ws).count) ++
          " connecte(s)." ∧
      (m.connect ws).count = m.count + 1 := by
  refine ⟨rfl, rfl, ?_⟩
  simp [ConnectionManager.connect, ConnectionManager.count]

/-- C5: each inbound message is relayed as the name, a colon and a space,
then the message, with a send attempt on exactly the current members other
than the sender, in registry order. -/
theorem relay_format_and_recipients (m : ConnectionManager) (ws : Conn)
    (name message : String) (fails : Conn → Bool) :
    (handlerMessage m ws name message fails).attempts =
      (m.active.filter (fun c => !(decide (c = ws)))).map
        (fun c => (c, name ++ ": " ++ message)) := by
  unfold handlerMessage
  rw [broadcast_attempts]
  congr 1
  apply List.filter_congr
  intro c _
  simp only [Option.some.injEq]
  congr 1
  rw [decide_eq_decide]
  exact eq_comm

/-- C6: disconnect of a connection that is not registered (never joined or
already left) returns normally and leaves the registry state exactly as it
was. -/
theorem disconnect_absent_noop (m : ConnectionManager) (c : Conn)
    (h : c ∉ m.active) : m.disconnect c = m := by
  simp [ConnectionManager.disconnect, h]

/-- Witness for C6: removing the never-joined connection 0 from a registry
holding 1 and 2 changes nothing. -/
theorem disconnect_absent_noop_witness :
    (0 : Conn) ∉ (ConnectionManager.mk [1, 2]).active ∧
      (ConnectionManager.mk [1, 2]).disconnect 0 = ConnectionManager.mk [1, 2] :=
  ⟨by decide, disconnect_absent_noop (ConnectionManager.mk [1, 2]) 0 (by decide)⟩

/-- C7: removal is deferred past the delivery pass - the attempted sends
cover exactly the prior non-excluded members, and the registry on return is
the prior registry minus exactly the connections whose send failed, with
the sender and every successful connection left in place, in order. -/
theorem broadcast_frame_effect (m : ConnectionManager) (msg : String)
    (fails : Conn → Bool) (sender : Option Conn) :
    (m.broadcast msg fails sender).attempts.map Prod.fst =
      m.active.filter (fun c => !(decide (sender = some c))) ∧
      (m.broadcast msg fails sender).manager.active =
        m.active.filter (fun c => decide (sender = some c) || !(fails c)) := by
  refine ⟨?_, broadcast_active m msg fails sender⟩
  rw [broadcast_attempts, List.map_map]
  simp [Function.comp_def]

/-- C8 fails as stated: the registry-size reads are performed with no lock
held - both the welcome-message read and the metrics read access the
collection outside any acquire/release pair. -/
theorem lock_discipline_counterexample :
    accessesLocked welcomeCountEvents = false ∧
      accessesLocked metricsEvents = false := by
  decide

/-- C8 (amended): every registry access inside the ConnectionManager
method bodies (the append of connect, the membership test and removal of
disconnect, the snapshot read and post-pass cleanup of broadcast) happens
while the lock is held, but the registry-size reads of the welcome message
and of the metrics endpoint happen with no lock held. -/
theorem lock_discipline_amended (present : Bool) (cleanup : List Bool) :
    accessesLocked connectEvents = true ∧
      accessesLocked (disconnectEvents present) = true ∧
      accessesLocked (broadcastEvents cleanup) = true ∧
      accessesLocked welcomeCountEvents = false ∧
      accessesLocked metricsEvents = false := by
  refine ⟨rfl, ?_, ?_, rfl, rfl⟩
  · cases present <;> rfl
  · show accessesLockedFrom false _ = true
    simp only [broadcastEvents, List.cons_append, List.nil_append,
      accessesLockedFrom]
    exact cleanupEvents_locked [LockEvent.release] cleanup rfl

/-- Witness for the amended C8 at a disconnect that removes and a cleanup
loop of two iterations. -/
theorem lock_discipline_amended_witness :
    accessesLocked connectEvents = true ∧
      accessesLocked (disconnectEvents true) = true ∧
      accessesLocked (broadcastEvents [true, false]) = true ∧
      accessesLocked welcomeCountEvents = false ∧
      accessesLocked metricsEvents = false :=
  lock_discipline_amended true [true, false]

/-- C9: broadcast returns normally whatever the per-connection sends do -
every exception is caught inside the pass - and the state it returns
agrees with the pure model of broadcast. -/
theorem broadcast_never_raises (m : ConnectionManager)
    (send : Conn → Except String Unit) (sender : Option Conn) (msg : String) :
    m.broadcastExc send sender =
      Except.ok (m.broadcast msg (sendFailsOf send) sender).manager := by
  unfold ConnectionManager.broadcastExc
  rw [deliveryPassExc_eq send sender msg]
  rfl

/-- C10: one disconnect removes exactly one occurrence of the connection;
a connection that was joined twice therefore stays registered after a
single leave, and a later broadcast that does not exclude it still
attempts its send. -/
theorem disconnect_removes_one_occurrence (m : ConnectionManager) (c : Conn)
    (msg : String) (fails : Conn → Bool) (sender : Option Conn)
    (hdup : 2 ≤ m.active.count c) (hns : sender ≠ some c) :
    (m.disconnect c).active.count c = m.active.count c - 1 ∧
      c ∈ (m.disconnect c).active ∧
      (c, msg) ∈ ((m.disconnect c).broadcast msg fails sender).attempts := by
  have hmem : c ∈ m.active := List.count_pos_iff.mp (by omega)
  have hactive : (m.disconnect c).active = m.active.erase c := by
    simp [ConnectionManager.disconnect, hmem]
  have hcount : (m.disconnect c).active.count c = m.active.count c - 1 := by
    rw [hactive, List.count_erase_self]
  have hmem2 : c ∈ (m.disconnect c).active := by
    rw [← List.count_pos_iff]
    omega
  refine ⟨hcount, hmem2, ?_⟩
  rw [broadcast_attempts]
  exact List.mem_map.mpr ⟨c, List.mem_filter.mpr ⟨hmem2, by simpa using hns⟩, rfl⟩

/-- Witness for C10: connection 5 joined twice; one disconnect leaves one
copy registered and a following broadcast still attempts its send. -/
theorem disconnect_removes_one_occurrence_witness :
    2 ≤ (ConnectionManager.mk [5, 5]).active.count 5 ∧
      (none : Option Conn) ≠ some 5 ∧
      (((ConnectionManager.mk [5, 5]).disconnect 5).active.count 5 =
          (ConnectionManager.mk [5, 5]).active.count 5 - 1 ∧
        5 ∈ ((ConnectionManager.mk [5, 5]).disconnect 5).active ∧
        (5, "m") ∈ (((ConnectionManager.mk [5, 5]).disconnect 5).broadcast "m"
          (fun _ => false) none).attempts) :=
  ⟨by decide, by decide,
    disconnect_removes_one_occurrence (ConnectionManager.mk [5, 5]) 5 "m"
      (fun _ => false) none (by decide) (by decide)⟩

end WebsocketTP
